import Mathlib

/-!
Shallow embedding of the WheelDeal car-price scraper core
(`src/scraper_selenium.py`, `src/scraper.py`, `app.py`).

Text is modelled as `List Char` (Python `str`); machine integers as `Nat`
(Python ints are unbounded); Python `float` arithmetic of the ranking/filter
module is modelled exactly over `ℚ`; fallible element lookups
(`find_element`, raising `NoSuchElementException`) as `Option`; the whole
scrape as an `Except` value paired with an event trace.
-/

/-- Python strings, modelled as lists of characters. -/
abbrev Str := List Char

/-! ## Text normalizers (`_parse_price` in scraper_selenium.py, `clean_price` in scraper.py) -/

/-- Numeric value of a decimal digit character (`int` conversion, per char). -/
def digitVal (c : Char) : Nat := c.toNat - 48

/-- Python `int(digit_string)`: base-10 value of a string of digits. -/
def digitsToNat (s : Str) : Nat := s.foldl (fun n c => 10 * n + digitVal c) 0

/-- Function `_parse_price` from scraper_selenium.py:
`if not text: return None`; `nums = re.findall(r"\d+", text.replace(',', ''))`;
`if not nums: return None`; `return int(''.join(nums))`.
Joining all digit runs of a string is exactly keeping its digit characters. -/
def _parse_price (text : Str) : Option Nat :=
  if text.isEmpty then none
  else
    let cleaned := text.filter (fun c => !(c = ','))
    let digs := cleaned.filter Char.isDigit
    if digs.isEmpty then none else some (digitsToNat digs)

/-- Function `clean_price` from scraper.py:
`if not text ...: return None`; `t = re.sub(r"[^\d]", "", text)`;
`return int(t) if t else None`. -/
def clean_price (text : Str) : Option Nat :=
  if text.isEmpty then none
  else
    let t := text.filter Char.isDigit
    if t.isEmpty then none else some (digitsToNat t)

/-- Decimal digit character of a value below 10 (Python `str(n)`, per digit). -/
def digitChar : Nat → Char
  | 0 => '0' | 1 => '1' | 2 => '2' | 3 => '3' | 4 => '4'
  | 5 => '5' | 6 => '6' | 7 => '7' | 8 => '8' | 9 => '9'
  | _ => '*'

/-- Python `str(n)` for a non-negative integer: its decimal rendering. -/
def natRepr (n : Nat) : Str :=
  if _h : n < 10 then [digitChar n]
  else natRepr (n / 10) ++ [digitChar (n % 10)]
decreasing_by exact Nat.div_lt_self (by omega) (by omega)

/-! ## Python string helpers used by the extractor -/

/-- Python `str.rstrip()`: drop trailing whitespace. -/
def rstrip (s : Str) : Str := (s.reverse.dropWhile Char.isWhitespace).reverse

/-- Python `str.strip()`: drop leading and trailing whitespace. -/
def pyStrip (s : Str) : Str := (rstrip s).dropWhile Char.isWhitespace

/-- Python `text.split('\n')[0]`: everything before the first newline. -/
def firstLine (s : Str) : Str := s.takeWhile (fun c => !(c = '\n'))

/-! ## Data model of the Selenium extractor (`scrape_olx_listings`) -/

/-- Python truthiness of an optional string (`if title:` where `title` is
`None` or a `str`): true iff present and non-empty. -/
def optStrTruthy : Option Str → Bool
  | some s => !s.isEmpty
  | none => false

/-- Python truthiness of an optional integer (`if price:`): true iff present
and non-zero. -/
def optNatTruthy : Option Nat → Bool
  | some n => !(n = 0)
  | none => false

/-- One listing container (a Selenium `WebElement`):
`text` is `it.text`; `q sel` is `it.find_element(By.CSS_SELECTOR, sel).text`
(`none` when `find_element` raises `NoSuchElementException`); `hrefAttr` is
the result of `it.find_element("a").get_attribute("href")`, with the outer
`none` when the lookup raises and the inner `Option` the attribute value. -/
structure Item where
  text : Str
  q : Str → Option Str
  hrefAttr : Option (Option Str)

/-- An emitted listing record (the dict appended to `all_listings`). -/
structure Listing where
  title : Str
  price : Option Nat
  url : Option Str
  meta : Str
  raw : Str
deriving DecidableEq

/-- The per-field selector cascade for string fields (title, location):
`for sel in sels: try: v = it.find_element(sel).text.strip(); if v: break
except: continue` — the loop variable keeps its last assigned value. -/
def strLoop (q : Str → Option Str) : List Str → Option Str → Option Str
  | [], cur => cur
  | s :: rest, cur =>
    match q s with
    | none => strLoop q rest cur
    | some t =>
      let v := pyStrip t
      if v.isEmpty then strLoop q rest (some v) else some v

/-- The price selector cascade:
`for sel in sels: try: price = _parse_price(it.find_element(sel).text);
if price: break except: continue`. -/
def priceLoop (q : Str → Option Str) : List Str → Option Nat → Option Nat
  | [], cur => cur
  | s :: rest, cur =>
    match q s with
    | none => priceLoop q rest cur
    | some t =>
      let p := _parse_price t
      if optNatTruthy p then p else priceLoop q rest p

/-- The candidate container selectors tried in order (scraper_selenium.py). -/
def containerSelectors : List Str :=
  ["ul > li[data-aut-id]".data,
   "li.EIR5N".data,
   "div[data-aut-id=\x27itemBox\x27]".data,
   "li._1DNjI".data,
   "div._2ZxqI".data]

/-- The candidate title selectors tried in order. -/
def titleSelectors : List Str :=
  ["h2".data, "span[data-aut-id=\x27itemTitle\x27]".data, "div._2tW1I".data]

/-- The candidate price selectors tried in order. -/
def priceSelectors : List Str :=
  ["span._2xKfz".data, "span[data-aut-id=\x27itemPrice\x27]".data, "div._1zgtX".data]

/-- The candidate location selectors tried in order. -/
def locationSelectors : List Str :=
  ["p._2TVI3".data, "span[data-aut-id=\x27item-location\x27]".data, "div._1KOFM".data]

/-- Constant `base = "https://www.olx.in"`. -/
def baseUrl : Str := "https://www.olx.in".data

/-- The resolved title of a container: the title selector cascade. -/
def titleResolve (it : Item) : Option Str := strLoop it.q titleSelectors none

/-- The resolved price of a container: the price selector cascade, falling
back to parsing the container's full stripped text when the cascade result is
falsy (`if not price: price = _parse_price(text)`). -/
def priceResolve (it : Item) : Option Nat :=
  let p := priceLoop it.q priceSelectors none
  if optNatTruthy p then p else _parse_price (pyStrip it.text)

/-- The resolved location of a container: the location selector cascade. -/
def locationResolve (it : Item) : Option Str := strLoop it.q locationSelectors none

/-- The resolved link: `href = a.get_attribute("href")`, joined against the
base URL when it starts with `/` (`urljoin` on a path-absolute reference). -/
def hrefResolve (it : Item) : Option Str :=
  match it.hrefAttr with
  | none => none
  | some none => none
  | some (some h) => some (if h.head? = some '/' then baseUrl ++ h else h)

/-- Processing of one container in the item loop of `scrape_olx_listings`:
skip when the stripped text is empty; resolve each field by its cascade;
emit a record only when `title or price` is truthy. -/
def processItem (it : Item) : Option Listing :=
  let text := pyStrip it.text
  if text.isEmpty then none
  else
    let title := titleResolve it
    let price := priceResolve it
    let href := hrefResolve it
    let location := locationResolve it
    if optStrTruthy title || optNatTruthy price then
      some
        { title :=
            if !text.isEmpty then
              (if optStrTruthy title then title.getD [] else firstLine text)
            else "Unknown".data,
          price := price,
          url := href,
          meta := if optStrTruthy location then location.getD [] else
            "Location not specified".data,
          raw := text }
    else none

/-! ## Container resolution and the page loop (`scrape_olx_listings`) -/

/-- The container selector loop:
`items = []; for selector in selectors: items = find_elements(selector);
if items: break` — first selector with a non-empty match set wins. -/
def firstFound (find : Str → List Item) : List Str → List Item
  | [] => []
  | s :: rest =>
    match find s with
    | [] => firstFound find rest
    | items => items

/-- One search-results page as the browser exposes it to the scraper:
`navFails` models `driver.get(url)` raising a `WebDriverException`;
`find sel` is `driver.find_elements(By.CSS_SELECTOR, sel)`. -/
structure Page where
  navFails : Bool
  find : Str → List Item

/-- Extraction of one successfully fetched page: resolve containers through
the selector table, then run the per-item loop (per-item failures skip the
item: `processItem` returns `none`). -/
def processPage (p : Page) : List Listing :=
  (firstFound p.find containerSelectors).filterMap processItem

/-- Error outcomes of a whole scrape: the webdriver could not be started
(the `RuntimeError` raised from the first `try`), or an exception escaped
the page loop and was re-raised by the `except ... raise` handler. -/
inductive ScrapeErr | sessionStart | pageCrash
deriving DecidableEq

/-- Observable resource events of a scrape (`driver.quit()`). -/
inductive Ev | quit
deriving DecidableEq

/-- The page loop body: `for page in range(1, pages+1): driver.get(url); ...`.
A navigation failure raises out of the loop; otherwise the page's records are
appended to the accumulator. -/
def runPages : List Page → List Listing → Except Unit (List Listing)
  | [], acc => .ok acc
  | p :: rest, acc =>
    if p.navFails then .error () else runPages rest (acc ++ processPage p)

/-- Function `scrape_olx_listings`, at the level of its control flow:
start the driver (fatal `RuntimeError` on failure, no driver to quit);
run the page loop inside `try ... except: raise finally: driver.quit()` —
the quit event is recorded on both the normal and the exceptional exit. -/
def scrape_olx_listings (startOk : Bool) (pages : List Page) :
    Except ScrapeErr (List Listing) × List Ev :=
  if startOk then
    match runPages pages [] with
    | .ok l => (.ok l, [.quit])
    | .error _ => (.error .pageCrash, [.quit])
  else (.error .sessionStart, [])

/-! ## The HTTP fallback pipeline (`scraper.py`) -/

/-- A container candidate of the HTTP pipeline (a BeautifulSoup tag);
only its text matters to container resolution. -/
structure HContainer where
  text : Str
deriving DecidableEq

/-- A parsed HTML document as `parse_listings_from_html` queries it:
`byQuery i` is the match set `soup.find_all(tag, attrs)` of the `i`-th entry
of `possible_containers` (0 ≤ i < 4); `links` is `soup.find_all("a", href=True)`. -/
structure HDoc where
  byQuery : Nat → List HContainer
  links : List HContainer

/-- The container query loop of the HTTP pipeline, over query indices. -/
def firstFoundH (byQuery : Nat → List HContainer) : List Nat → List HContainer
  | [] => []
  | i :: rest =>
    match byQuery i with
    | [] => firstFoundH byQuery rest
    | cs => cs

/-- Container resolution in `parse_listings_from_html`: try the four
candidate queries in table order, first non-empty match set wins; only when
all four fail, fall back to link-like elements with short non-empty text,
truncated to 200. -/
def resolveContainers (doc : HDoc) : List HContainer :=
  match firstFoundH doc.byQuery [0, 1, 2, 3] with
  | [] =>
    (doc.links.filter
      (fun c => !(pyStrip c.text).isEmpty && (pyStrip c.text).length < 200)).take 200
  | cs => cs

/-! ## `fetch_html` retry loop (`scraper.py`) -/

/-- Outcome of one `requests.get` + `raise_for_status`: the request raised,
or returned a response with the given body text. -/
inductive Att
  | raises
  | ok (text : Str)

/-- Check `"<html" in r.text.lower()`: the acceptance test of a response. -/
def isPrefixB : Str → Str → Bool
  | [], _ => true
  | _ :: _, [] => false
  | a :: as, b :: bs => a = b && isPrefixB as bs

/-- Substring containment (Python `in` on strings). -/
def containsSeq (pat : Str) : Str → Bool
  | [] => pat.isEmpty
  | c :: cs => isPrefixB pat (c :: cs) || containsSeq pat cs

/-- Check `"<html" in r.text.lower()` on a response body. -/
def hasHtmlRoot (body : Str) : Bool :=
  containsSeq "<html".data (body.map Char.toLower)

/-- Whether one attempt fails: the request raised, or the body lacks a
recognizable markup root (the `ValueError` branch, caught by the same
`except`). -/
def attemptFails : Att → Bool
  | .raises => true
  | .ok t => !hasHtmlRoot t

/-- Observable trace of a `fetch_html` call: how many requests were issued
and each random sleep's `(lo, hi)` range, in order. -/
structure FTrace where
  requests : Nat
  sleeps : List (ℚ × ℚ)
deriving DecidableEq

/-- The body of `fetch_html`'s `for attempt in range(max_retries)` loop,
by remaining iterations (`attempt = maxR - remaining`):
each iteration sleeps `random.uniform(1.0, 2.5)`, issues the request,
accepts the body only if it has a markup root, and on failure sleeps
`random.uniform(2, 5)` before the next iteration — except after the last
attempt, which returns `None`. -/
def fetchLoop (oracle : Nat → Att) (maxR : Nat) : Nat → Option Str × FTrace
  | 0 => (none, ⟨0, []⟩)
  | r + 1 =>
    let attempt := maxR - (r + 1)
    let pre : ℚ × ℚ := (1, 5 / 2)
    match oracle attempt with
    | .ok t =>
      if hasHtmlRoot t then (some t, ⟨1, [pre]⟩)
      else if r = 0 then (none, ⟨1, [pre]⟩)
      else
        let rest := fetchLoop oracle maxR r
        (rest.1, ⟨rest.2.requests + 1, pre :: ((2 : ℚ), (5 : ℚ)) :: rest.2.sleeps⟩)
    | .raises =>
      if r = 0 then (none, ⟨1, [pre]⟩)
      else
        let rest := fetchLoop oracle maxR r
        (rest.1, ⟨rest.2.requests + 1, pre :: ((2 : ℚ), (5 : ℚ)) :: rest.2.sleeps⟩)

/-- Function `fetch_html(url, max_retries=3)`: run the attempt loop. The network is
the oracle: `oracle i` is what attempt `i`'s request does. -/
def fetch_html (oracle : Nat → Att) (maxR : Nat := 3) : Option Str × FTrace :=
  fetchLoop oracle maxR maxR

/-! ## Ranking/filter module (`app.py` scrape-button handler) -/

/-- Band filter: `low = price * (1 - tol / 100.0)`, `high = price * (1 + tol / 100.0)`,
`filtered = [l for l in listings if l.get("price") is not None and
low <= l["price"] <= high]`. Arithmetic is modelled exactly over `ℚ`. -/
def filterByTolerance (listings : List Listing) (ref tol : ℚ) : List Listing :=
  let low := ref * (1 - tol / 100)
  let high := ref * (1 + tol / 100)
  listings.filter (fun l =>
    match l.price with
    | none => false
    | some p => decide (low ≤ (p : ℚ)) && decide ((p : ℚ) ≤ high))

/-- Sort key `abs(x[\x27price\x27] - price)` of the proximity ranking
(`0` stands in for a price that the ranking never reads: the code sorts only
listings whose price is truthy). -/
def priceDist (ref : ℚ) (l : Listing) : ℚ := |(l.price.getD 0 : ℚ) - ref|

/-- The zero-match fallback of the handler:
`valid_listings = [l for l in listings if l.get('price')]`;
`ranked = sorted(valid_listings, key=lambda x: abs(x['price'] - price))`;
`results = ranked[:10]` (and `[]` when no listing has a truthy price, which
coincides with sorting and truncating the empty list). Python's `sorted` is a
stable mergesort, modelled by `List.mergeSort`. -/
def fallbackRanking (listings : List Listing) (ref : ℚ) : List Listing :=
  let valid := listings.filter (fun l => optNatTruthy l.price)
  let ranked := valid.mergeSort (fun a b => decide (priceDist ref a ≤ priceDist ref b))
  ranked.take 10

/-- Listings used as concrete test data for the ranking/filter module. -/
def bandL450 : Listing := ⟨"a".data, some 450000, none, [], []⟩

def bandL650 : Listing := ⟨"b".data, some 650000, none, [], []⟩

/-- A document that matches only the third candidate container query, in
each pipeline. -/
def thirdSelItem : Item := ⟨"x".data, fun _ => none, none⟩

def thirdOnlyFind : Str → List Item :=
  fun s => if s = "div[data-aut-id=\x27itemBox\x27]".data then [thirdSelItem] else []

def thirdHC : HContainer := ⟨"y".data⟩

def thirdOnlyDoc : HDoc := ⟨fun i => if i = 2 then [thirdHC] else [], [⟨"link".data⟩]⟩

/-- A container whose title selector matches and whose price comes from the
raw-text fallback; it is emitted. -/
def sampleItem : Item :=
  ⟨"Nice Car\n₹ 5,000".data,
   fun s => if s = "h2".data then some "Nice Car".data else none,
   some (some "/item/1".data)⟩

/-- The record `sampleItem` produces. -/
def sampleListing : Listing :=
  ⟨"Nice Car".data, some 5000, some "https://www.olx.in/item/1".data,
   "Location not specified".data, "Nice Car\n₹ 5,000".data⟩

/-- A container none of whose title selectors match; the first line of its
text becomes the title. -/
def noTitleItem : Item := ⟨"Swift 2015\n₹ 3,00,000".data, fun _ => none, none⟩

/-- The record `noTitleItem` produces. -/
def noTitleListing : Listing :=
  ⟨"Swift 2015".data, some 2015300000, none, "Location not specified".data,
   "Swift 2015\n₹ 3,00,000".data⟩

/-- A container whose only resolved field is a zero price. -/
def zItem : Item :=
  ⟨"Item 0".data,
   fun s => if s = "span._2xKfz".data then some "0".data else none,
   none⟩

/-- A page whose navigation (`driver.get`) raises. -/
def crashPage : Page := ⟨true, fun _ => []⟩

/-- A page that navigates fine but matches no container selector. -/
def emptyFindPage : Page := ⟨false, fun _ => []⟩

/-- A listing with a non-null but zero price. -/
def zeroPriceListing : Listing := ⟨"Car".data, some 0, none, "m".data, "Car 0".data⟩

/-- A listing with a truthy price, for the ranking witness. -/
def rankL : Listing := ⟨"c".data, some 42, none, [], []⟩

theorem digitVal_digitChar {k : Nat} (h : k < 10) : digitVal (digitChar k) = k := by
  interval_cases k <;> decide

theorem digitChar_isDigit {k : Nat} (h : k < 10) : (digitChar k).isDigit = true := by
  interval_cases k <;> decide

theorem digitsToNat_append (l : Str) (c : Char) :
    digitsToNat (l ++ [c]) = 10 * digitsToNat l + digitVal c := by
  simp [digitsToNat, List.foldl_append]

theorem natRepr_ne_nil (n : Nat) : natRepr n ≠ [] := by
  rw [natRepr]
  split <;> simp

theorem digitsToNat_natRepr (n : Nat) : digitsToNat (natRepr n) = n := by
  induction n using Nat.strong_induction_on with
  | _ n ih =>
    rw [natRepr]
    split
    · simp [digitsToNat, digitVal_digitChar, *]
    · rename_i h
      rw [digitsToNat_append, ih (n / 10) (Nat.div_lt_self (by omega) (by omega)),
        digitVal_digitChar (Nat.mod_lt n (by omega))]
      omega

theorem natRepr_all_digits (n : Nat) : ∀ c ∈ natRepr n, c.isDigit = true := by
  induction n using Nat.strong_induction_on with
  | _ n ih =>
    rw [natRepr]
    split
    · rename_i h
      intro c hc
      simp at hc
      subst hc
      exact digitChar_isDigit h
    · rename_i h
      intro c hc
      rcases List.mem_append.mp hc with hc | hc
      · exact ih (n / 10) (Nat.div_lt_self (by omega) (by omega)) c hc
      · simp at hc
        subst hc
        exact digitChar_isDigit (Nat.mod_lt n (by omega))

theorem isDigit_ne_comma {c : Char} (h : c.isDigit = true) : (c = ',') = False := by
  simp only [eq_iff_iff, iff_false]
  intro hc
  subst hc
  simp at h

/-- Removing commas first does not change which digit characters remain. -/
theorem filter_digit_filter_comma (s : Str) :
    (s.filter (fun c => !(c = ','))).filter Char.isDigit = s.filter Char.isDigit := by
  rw [List.filter_filter]
  apply List.filter_congr
  intro c _
  cases h : c.isDigit
  · simp [h]
  · simp [h, isDigit_ne_comma h]

theorem parse_price_eq_digits (s : Str) :
    _parse_price s =
      if (s.filter Char.isDigit).isEmpty then none
      else some (digitsToNat (s.filter Char.isDigit)) := by
  rw [_parse_price]
  split
  · rename_i h
    rw [List.isEmpty_iff] at h
    subst h
    simp
  · simp only [filter_digit_filter_comma]

theorem clean_price_eq_digits (s : Str) :
    clean_price s =
      if (s.filter Char.isDigit).isEmpty then none
      else some (digitsToNat (s.filter Char.isDigit)) := by
  rw [clean_price]
  split
  · rename_i h
    rw [List.isEmpty_iff] at h
    subst h
    simp
  · rfl

theorem parse_price_natRepr (n : Nat) : _parse_price (natRepr n) = some n := by
  rw [parse_price_eq_digits, List.filter_eq_self.mpr (natRepr_all_digits n)]
  simp [List.isEmpty_iff, natRepr_ne_nil n, digitsToNat_natRepr n]

theorem dropWhile_head_false {p : Char → Bool} :
    ∀ l : Str, l.dropWhile p ≠ [] →
      ∃ c cs, l.dropWhile p = c :: cs ∧ p c = false := by
  intro l
  induction l with
  | nil => intro h; simp at h
  | cons a as ih =>
    intro h
    by_cases ha : p a
    · rw [List.dropWhile_cons_of_pos ha] at h ⊢
      exact ih h
    · rw [List.dropWhile_cons_of_neg ha]
      exact ⟨a, as, rfl, by simpa using ha⟩

theorem pyStrip_head_not_ws (s : Str) (h : pyStrip s ≠ []) :
    ∃ c cs, pyStrip s = c :: cs ∧ c.isWhitespace = false := by
  exact dropWhile_head_false (rstrip s) h

theorem firstLine_ne_nil {c : Char} (cs : Str) (h : c.isWhitespace = false) :
    firstLine (c :: cs) ≠ [] := by
  have hc : (c = '\n') = False := by
    simp only [eq_iff_iff, iff_false]
    intro he
    subst he
    simp at h
  simp [firstLine, hc]

/-! ## Helper lemmas -/

theorem optStrTruthy_ne_none {o : Option Str} (h : optStrTruthy o = true) : o ≠ none := by
  cases o <;> simp_all [optStrTruthy]

theorem optNatTruthy_ne_none {o : Option Nat} (h : optNatTruthy o = true) : o ≠ none := by
  cases o <;> simp_all [optNatTruthy]

theorem optNatTruthy_some_zero : optNatTruthy (some 0) = false := by decide

theorem runPages_all_nav_ok :
    ∀ (pages : List Page) (acc : List Listing), (∀ p ∈ pages, p.navFails = false) →
      runPages pages acc =
        Except.ok (pages.foldl (fun a p => a ++ processPage p) acc) := by
  intro pages
  induction pages with
  | nil => intro acc _; rfl
  | cons p rest ih =>
    intro acc h
    have hp : p.navFails = false := h p (List.mem_cons_self p rest)
    rw [runPages, hp]
    simp only [Bool.false_eq_true, if_false, List.foldl_cons]
    exact ih (acc ++ processPage p) (fun q hq => h q (List.mem_cons_of_mem p hq))

theorem firstFound_all_empty {find : Str → List Item} (h : ∀ s, find s = []) :
    ∀ sels, firstFound find sels = [] := by
  intro sels
  induction sels with
  | nil => rfl
  | cons s rest ih => rw [firstFound, h s]; exact ih

theorem foldl_processPage_empty :
    ∀ (pages : List Page) (acc : List Listing),
      (∀ p ∈ pages, ∀ s, p.find s = []) →
      pages.foldl (fun a p => a ++ processPage p) acc = acc := by
  intro pages
  induction pages with
  | nil => intro acc _; rfl
  | cons p rest ih =>
    intro acc h
    have hp : processPage p = [] := by
      rw [processPage, firstFound_all_empty (h p (List.mem_cons_self p rest))]
      rfl
    rw [List.foldl_cons, hp, List.append_nil]
    exact ih acc (fun q hq => h q (List.mem_cons_of_mem p hq))

/-! ## Claim theorems -/

/-- C2: the price normalizer (`_parse_price` in the Selenium pipeline,
`clean_price` in the HTTP pipeline) is pure, deterministic and total by
construction; for every input string it returns the base-10 integer formed by
the string's digit characters, `none` when no digits remain; the two
pipelines' normalizers agree on every string; `"₹ 3,45,000"` normalizes to
`345000`; and normalizing the decimal rendering of a non-null output returns
the same integer. -/
theorem normalizePrice_spec :
    (∀ s : Str, _parse_price s =
      if (s.filter Char.isDigit).isEmpty then none
      else some (digitsToNat (s.filter Char.isDigit))) ∧
    (∀ s : Str, clean_price s = _parse_price s) ∧
    _parse_price "₹ 3,45,000".data = some 345000 ∧
    (∀ (s : Str) (n : Nat), _parse_price s = some n →
      _parse_price (natRepr n) = some n) :=
  ⟨parse_price_eq_digits,
   fun s => by rw [clean_price_eq_digits, parse_price_eq_digits],
   by decide,
   fun _ n _ => parse_price_natRepr n⟩

/-- C2 witness: the idempotence clause applied at `"₹ 3,45,000"` / `345000`. -/
theorem normalizePrice_spec_witness :
    _parse_price (natRepr 345000) = some 345000 :=
  normalizePrice_spec.2.2.2 "₹ 3,45,000".data 345000 (by decide)

/-- C5: `filterByTolerance` keeps a listing iff its price is non-null and
lies in the band `[ref * (1 - tol/100), ref * (1 + tol/100)]`; for
`ref = 500000`, `tol = 20` the band is `[400000, 600000]`, a listing priced
450000 matches and one priced 650000 does not. -/
theorem filterByTolerance_spec :
    (∀ (listings : List Listing) (ref tol : ℚ) (l : Listing),
      l ∈ filterByTolerance listings ref tol ↔
        l ∈ listings ∧ ∃ p : Nat, l.price = some p ∧
          ref * (1 - tol / 100) ≤ (p : ℚ) ∧ (p : ℚ) ≤ ref * (1 + tol / 100)) ∧
    (500000 : ℚ) * (1 - 20 / 100) = 400000 ∧
    (500000 : ℚ) * (1 + 20 / 100) = 600000 ∧
    bandL450 ∈ filterByTolerance [bandL450, bandL650] 500000 20 ∧
    bandL650 ∉ filterByTolerance [bandL450, bandL650] 500000 20 := by
  refine ⟨?_, by norm_num, by norm_num, ?_, ?_⟩
  · intro listings ref tol l
    simp only [filterByTolerance, List.mem_filter]
    constructor
    · rintro ⟨hm, hp⟩
      refine ⟨hm, ?_⟩
      cases h : l.price with
      | none => rw [h] at hp; simp at hp
      | some p =>
        rw [h] at hp
        simp only [Bool.and_eq_true, decide_eq_true_eq] at hp
        exact ⟨p, rfl, hp.1, hp.2⟩
    · rintro ⟨hm, p, hp, h1, h2⟩
      refine ⟨hm, ?_⟩
      rw [hp]
      simp only [Bool.and_eq_true, decide_eq_true_eq]
      exact ⟨h1, h2⟩
  · norm_num [filterByTolerance, bandL450, bandL650, List.filter]
  · norm_num [filterByTolerance, bandL450, bandL650, List.filter]

/-- C5 witness: the membership characterization applied at a concrete
listing and band. -/
theorem filterByTolerance_spec_witness :
    bandL450 ∈ [bandL450] ∧ ∃ p : Nat, bandL450.price = some p ∧
      (500000 : ℚ) * (1 - 20 / 100) ≤ (p : ℚ) ∧
      (p : ℚ) ≤ (500000 : ℚ) * (1 + 20 / 100) :=
  (filterByTolerance_spec.1 [bandL450] 500000 20 bandL450).mp
    (by norm_num [filterByTolerance, bandL450, List.filter])

theorem firstFound_first_match (find : Str → List Item) :
    ∀ (pre : List Str) (s : Str) (post : List Str),
      (∀ q ∈ pre, find q = []) → find s ≠ [] →
      firstFound find (pre ++ s :: post) = find s := by
  intro pre
  induction pre with
  | nil =>
    intro s post _ hs
    rw [List.nil_append]
    cases h : find s with
    | nil => exact absurd h hs
    | cons a as => simp only [firstFound, h]
  | cons p pre ih =>
    intro s post hpre hs
    rw [List.cons_append]
    simp only [firstFound, hpre p (List.mem_cons_self p pre)]
    exact ih s post (fun q hq => hpre q (List.mem_cons_of_mem p hq)) hs

theorem firstFound_no_match (find : Str → List Item) :
    ∀ sels : List Str, (∀ q ∈ sels, find q = []) → firstFound find sels = [] := by
  intro sels
  induction sels with
  | nil => intro _; rfl
  | cons s rest ih =>
    intro h
    simp only [firstFound, h s (List.mem_cons_self s rest)]
    exact ih (fun q hq => h q (List.mem_cons_of_mem s hq))

theorem firstFoundH_first_match (byQuery : Nat → List HContainer) :
    ∀ (pre : List Nat) (i : Nat) (post : List Nat),
      (∀ j ∈ pre, byQuery j = []) → byQuery i ≠ [] →
      firstFoundH byQuery (pre ++ i :: post) = byQuery i := by
  intro pre
  induction pre with
  | nil =>
    intro i post _ hi
    rw [List.nil_append]
    cases h : byQuery i with
    | nil => exact absurd h hi
    | cons a as => simp only [firstFoundH, h]
  | cons p pre ih =>
    intro i post hpre hi
    rw [List.cons_append]
    simp only [firstFoundH, hpre p (List.mem_cons_self p pre)]
    exact ih i post (fun j hj => hpre j (List.mem_cons_of_mem p hj)) hi

theorem firstFoundH_no_match (byQuery : Nat → List HContainer) :
    ∀ idxs : List Nat, (∀ j ∈ idxs, byQuery j = []) →
      firstFoundH byQuery idxs = [] := by
  intro idxs
  induction idxs with
  | nil => intro _; rfl
  | cons i rest ih =>
    intro h
    simp only [firstFoundH, h i (List.mem_cons_self i rest)]
    exact ih (fun j hj => h j (List.mem_cons_of_mem i hj))

/-- C4: container resolution tries the candidate queries in table order and,
for every document, returns exactly the match set of the first query that
yields at least one match — no merging with later queries or the generic
fallback. In the Selenium pipeline: whenever the selector table splits as
`pre ++ s :: post` with every query of `pre` matching nothing and `s`
matching, the result is exactly `s`'s match set, and when every query fails
the result is empty. In the HTTP pipeline: the same first-match-wins holds
over the four candidate queries, and only when all four fail is the generic
link fallback (short non-empty text, truncated to 200) returned. -/
theorem resolveContainers_first_match_wins :
    (∀ (find : Str → List Item) (pre : List Str) (s : Str) (post : List Str),
      containerSelectors = pre ++ s :: post →
      (∀ q ∈ pre, find q = []) → find s ≠ [] →
      firstFound find containerSelectors = find s) ∧
    (∀ find : Str → List Item, (∀ q ∈ containerSelectors, find q = []) →
      firstFound find containerSelectors = []) ∧
    (∀ (doc : HDoc) (pre : List Nat) (i : Nat) (post : List Nat),
      [0, 1, 2, 3] = pre ++ i :: post →
      (∀ j ∈ pre, doc.byQuery j = []) → doc.byQuery i ≠ [] →
      resolveContainers doc = doc.byQuery i) ∧
    (∀ doc : HDoc, (∀ j ∈ [0, 1, 2, 3], doc.byQuery j = []) →
      resolveContainers doc =
        (doc.links.filter (fun c =>
          !(pyStrip c.text).isEmpty && (pyStrip c.text).length < 200)).take 200) := by
  refine ⟨?_, ?_, ?_, ?_⟩
  · intro find pre s post heq hpre hs
    rw [heq]
    exact firstFound_first_match find pre s post hpre hs
  · intro find h
    exact firstFound_no_match find containerSelectors h
  · intro doc pre i post heq hpre hi
    rw [resolveContainers, heq, firstFoundH_first_match doc.byQuery pre i post hpre hi]
    cases h : doc.byQuery i with
    | nil => exact absurd h hi
    | cons a as => rfl
  · intro doc h
    rw [resolveContainers, firstFoundH_no_match doc.byQuery [0, 1, 2, 3] h]

/-- C4 witness: the first-match-wins clauses applied at documents matching
only the third candidate query (so `pre` is queries 1-2). -/
theorem resolveContainers_first_match_wins_witness :
    firstFound thirdOnlyFind containerSelectors = [thirdSelItem] ∧
    resolveContainers thirdOnlyDoc = [thirdHC] :=
  ⟨(resolveContainers_first_match_wins.1 thirdOnlyFind
      ["ul > li[data-aut-id]".data, "li.EIR5N".data]
      ("div[data-aut-id=\x27itemBox\x27]".data)
      ["li._1DNjI".data, "div._2ZxqI".data]
      rfl
      (by intro q hq; fin_cases hq <;> rfl)
      (by
        have h : thirdOnlyFind ("div[data-aut-id=\x27itemBox\x27]".data)
            = [thirdSelItem] := rfl
        rw [h]
        simp)).trans rfl,
   (resolveContainers_first_match_wins.2.2.1 thirdOnlyDoc [0, 1] 2 [3]
      rfl
      (by intro j hj; fin_cases hj <;> rfl)
      (by
        have h : thirdOnlyDoc.byQuery 2 = [thirdHC] := rfl
        rw [h]
        simp)).trans rfl⟩

/-- C8: whenever the rendering session starts, `driver.quit()` runs on every
exit path of `scrape_olx_listings` — both when the page loop returns its
accumulated listings and when an exception is re-raised out of it — so the
call never ends with the external rendering process alive. -/
theorem quit_on_every_exit :
    ∀ pages : List Page, (scrape_olx_listings true pages).2 = [Ev.quit] := by
  intro pages
  rw [scrape_olx_listings]
  simp only [if_true]
  cases runPages pages [] <;> rfl

/-- C1: the Container/Field Extractor appends a record for a container only
when at least one of the resolved title and the resolved price is truthy; in
particular at least one of them is non-null, and a container whose title and
price both resolve to null is never emitted. -/
theorem emit_requires_title_or_price :
    ∀ (it : Item) (r : Listing), processItem it = some r →
      titleResolve it ≠ none ∨ priceResolve it ≠ none := by
  intro it r h
  simp only [processItem] at h
  split at h
  · exact absurd h (by simp)
  · split at h
    · rename_i hg
      rcases Bool.or_eq_true_iff.mp hg with ht | hp
      · exact Or.inl (optStrTruthy_ne_none ht)
      · exact Or.inr (optNatTruthy_ne_none hp)
    · exact absurd h (by simp)

/-- C1 witness: the emission invariant applied at `sampleItem`. -/
theorem emit_requires_title_or_price_witness :
    titleResolve sampleItem ≠ none ∨ priceResolve sampleItem ≠ none :=
  emit_requires_title_or_price sampleItem sampleListing (by rfl)

theorem optStrTruthy_getD_ne_nil {o : Option Str} (h : optStrTruthy o = true) :
    o.getD [] ≠ [] := by
  cases o with
  | none => simp [optStrTruthy] at h
  | some s =>
    simp only [optStrTruthy, Bool.not_eq_true'] at h
    simpa [List.isEmpty_iff] using h

/-- C9: every emitted record has a non-empty title: containers whose
stripped text is empty are skipped before extraction, and when the title
cascade resolves to nothing truthy, the first line of the container's
non-empty stripped text is substituted — so an emitted title is never null
or empty. -/
theorem emitted_title_nonempty :
    (∀ it : Item, (pyStrip it.text).isEmpty = true → processItem it = none) ∧
    (∀ (it : Item) (r : Listing), processItem it = some r → r.title ≠ []) ∧
    (∀ (it : Item) (r : Listing), processItem it = some r →
      optStrTruthy (titleResolve it) = false →
      r.title = firstLine (pyStrip it.text)) := by
  refine ⟨?_, ?_, ?_⟩
  · intro it h
    simp [processItem, h]
  · intro it r h
    simp only [processItem] at h
    split at h
    · exact absurd h (by simp)
    · rename_i hne
      split at h
      · rw [Option.some_inj] at h
        rw [← h]
        simp only [Bool.not_eq_true] at hne
        simp only [hne, Bool.not_false, if_true]
        split
        · rename_i ht
          exact optStrTruthy_getD_ne_nil ht
        · have hnil : pyStrip it.text ≠ [] := by
            simpa [List.isEmpty_iff] using hne
          obtain ⟨c, cs, heq, hw⟩ := pyStrip_head_not_ws it.text hnil
          rw [heq]
          exact firstLine_ne_nil cs hw
      · exact absurd h (by simp)
  · intro it r h ht
    simp only [processItem] at h
    split at h
    · exact absurd h (by simp)
    · rename_i hne
      split at h
      · rw [Option.some_inj] at h
        rw [← h]
        simp only [Bool.not_eq_true] at hne
        simp [hne, ht]
      · exact absurd h (by simp)

/-- C9 witness: both title clauses applied at concrete containers. -/
theorem emitted_title_nonempty_witness :
    sampleListing.title ≠ [] ∧
    noTitleListing.title = firstLine (pyStrip noTitleItem.text) :=
  ⟨emitted_title_nonempty.2.1 sampleItem sampleListing (by rfl),
   emitted_title_nonempty.2.2 noTitleItem noTitleListing (by rfl) (by rfl)⟩

/-- C10: a parsed price of 0 is treated like no price at all: the price
cascade does not break on a selector whose text normalizes to 0 (it keeps
trying later selectors, carrying 0 as the current value), a falsy final
cascade value (0 as well as null) triggers the full-raw-text fallback scan,
and a container whose title is falsy and whose resolved price is 0 or null
fails the title-or-price emission check and is not emitted. -/
theorem zero_price_treated_missing :
    (∀ (q : Str → Option Str) (s : Str) (rest : List Str) (cur : Option Nat)
      (t : Str), q s = some t → _parse_price t = some 0 →
      priceLoop q (s :: rest) cur = priceLoop q rest (some 0)) ∧
    (∀ it : Item, priceLoop it.q priceSelectors none = some 0 →
      priceResolve it = _parse_price (pyStrip it.text)) ∧
    (∀ it : Item, optStrTruthy (titleResolve it) = false →
      priceResolve it = none ∨ priceResolve it = some 0 →
      processItem it = none) := by
  refine ⟨?_, ?_, ?_⟩
  · intro q s rest cur t hq hp
    simp only [priceLoop, hq, hp, optNatTruthy_some_zero, Bool.false_eq_true,
      if_false]
  · intro it h
    simp only [priceResolve, h, optNatTruthy_some_zero, Bool.false_eq_true,
      if_false]
  · intro it ht hp
    simp only [processItem]
    split
    · rfl
    · have hguard :
        (optStrTruthy (titleResolve it) || optNatTruthy (priceResolve it)) = false := by
        rcases hp with hp | hp <;> simp [ht, hp, optNatTruthy]
      simp [hguard]

/-- C10 witness: the fallback-trigger and non-emission clauses applied at a
container whose price cascade resolves to 0. -/
theorem zero_price_treated_missing_witness :
    priceResolve zItem = _parse_price (pyStrip zItem.text) ∧
    processItem zItem = none :=
  ⟨zero_price_treated_missing.2.1 zItem (by rfl),
   zero_price_treated_missing.2.2 zItem (by rfl) (Or.inr (by rfl))⟩

/-- C3 counterexample: the claim "scrape raises if and only if the rendering
session cannot be started" is false — with a successfully started session, a
page whose navigation raises escapes the page loop, is re-raised by the
`except ... raise` handler, and the call ends in an error rather than a
reduced result set. -/
theorem scrape_raises_beyond_session_start :
    (scrape_olx_listings true [crashPage]).1 = Except.error ScrapeErr.pageCrash := rfl

/-- C3 (amended): scrape raises when the session cannot be started, and also
propagates an exception raised by page navigation; all other per-page
failures (content-wait timeout, no container selector matching, per-item
extraction failures) only reduce the result set: when every page navigates
successfully the call returns the concatenated per-page extractions, and
when additionally every page yields no containers it returns the empty
sequence rather than raising. -/
theorem scrape_error_policy :
    (∀ pages : List Page,
      scrape_olx_listings false pages = (Except.error ScrapeErr.sessionStart, [])) ∧
    (∀ pages : List Page, (∀ p ∈ pages, p.navFails = false) →
      (scrape_olx_listings true pages).1 =
        Except.ok (pages.foldl (fun a p => a ++ processPage p) [])) ∧
    (∀ pages : List Page,
      (∀ p ∈ pages, p.navFails = false ∧ ∀ s, p.find s = []) →
      (scrape_olx_listings true pages).1 = Except.ok []) := by
  refine ⟨fun pages => rfl, ?_, ?_⟩
  · intro pages h
    rw [scrape_olx_listings]
    simp only [if_true]
    rw [runPages_all_nav_ok pages [] h]
  · intro pages h
    rw [scrape_olx_listings]
    simp only [if_true]
    rw [runPages_all_nav_ok pages [] (fun p hp => (h p hp).1),
      foldl_processPage_empty pages [] (fun p hp => (h p hp).2)]

/-- C3 witness: the soft-failure clauses applied at a concrete page list. -/
theorem scrape_error_policy_witness :
    (scrape_olx_listings true [emptyFindPage, emptyFindPage]).1 = Except.ok [] :=
  scrape_error_policy.2.2 [emptyFindPage, emptyFindPage]
    (by
      intro p hp
      have : p = emptyFindPage := by
        rcases List.mem_cons.mp hp with h | h
        · exact h
        · simpa using h
      subst this
      exact ⟨rfl, fun s => rfl⟩)

/-- C6 counterexample: the claim that the fallback result is the listings
with non-null price ranked by proximity is false — `[l for l in listings if
l.get('price')]` uses truthiness, so a listing whose price is the non-null
integer 0 is excluded from the ranked result even when it is the only
candidate. -/
theorem fallback_drops_nonnull_zero_price :
    fallbackRanking [zeroPriceListing] 100 = [] ∧
    zeroPriceListing.price ≠ none := by
  constructor
  · simp [fallbackRanking, zeroPriceListing, optNatTruthy, List.mergeSort_nil]
  · simp [zeroPriceListing]

/-- C6 (amended): when zero listings fall inside the tolerance band, the
fallback result is the listings with truthy (non-null and non-zero) price
sorted ascending by absolute price distance and truncated to the top 10;
listings with null — or zero — price never appear in it. -/
theorem fallbackRanking_spec :
    (∀ (listings : List Listing) (ref : ℚ),
      (fallbackRanking listings ref).length ≤ 10) ∧
    (∀ (listings : List Listing) (ref : ℚ) (l : Listing),
      l ∈ fallbackRanking listings ref →
        l ∈ listings ∧ ∃ p : Nat, l.price = some p ∧ p ≠ 0) ∧
    (∀ (listings : List Listing) (ref : ℚ),
      (fallbackRanking listings ref).Pairwise
        (fun a b => priceDist ref a ≤ priceDist ref b)) := by
  refine ⟨?_, ?_, ?_⟩
  · intro listings ref
    exact List.length_take_le 10 _
  · intro listings ref l h
    have h1 := List.mem_of_mem_take h
    rw [List.mem_mergeSort, List.mem_filter] at h1
    refine ⟨h1.1, ?_⟩
    have := h1.2
    cases hp : l.price with
    | none => rw [hp] at this; simp [optNatTruthy] at this
    | some p =>
      rw [hp] at this
      simp only [optNatTruthy, Bool.not_eq_true', decide_eq_false_iff_not] at this
      exact ⟨p, rfl, this⟩
  · intro listings ref
    have hs := @List.sorted_mergeSort Listing
      (fun a b : Listing => decide (priceDist ref a ≤ priceDist ref b))
      (fun a b c hab hbc => by
        simp only [decide_eq_true_eq] at hab hbc ⊢
        exact le_trans hab hbc)
      (fun a b => by
        simp only [Bool.or_eq_true, decide_eq_true_eq]
        exact le_total _ _)
      (listings.filter (fun l => optNatTruthy l.price))
    have hp := hs.imp (fun {a b} hab => of_decide_eq_true hab)
    exact List.Pairwise.sublist (List.take_sublist 10 _) hp

/-- C6 witness: the membership clause applied at a singleton list. -/
theorem fallbackRanking_spec_witness :
    rankL ∈ [rankL] ∧ ∃ p : Nat, rankL.price = some p ∧ p ≠ 0 :=
  fallbackRanking_spec.2.1 [rankL] 0 rankL
    (by simp [fallbackRanking, rankL, optNatTruthy, List.mergeSort_singleton])

theorem fetchLoop_requests_le (oracle : Nat → Att) (maxR : Nat) :
    ∀ r, (fetchLoop oracle maxR r).2.requests ≤ r := by
  intro r
  induction r with
  | zero => simp [fetchLoop]
  | succ n ih =>
    rw [fetchLoop]
    cases oracle (maxR - (n + 1)) with
    | ok t =>
      simp only
      split
      · simp
      · split
        · simp
        · simp only
          omega
    | raises =>
      simp only
      split
      · simp
      · simp only
        omega

theorem fetchLoop_some_html (oracle : Nat → Att) (maxR : Nat) :
    ∀ r t, (fetchLoop oracle maxR r).1 = some t → hasHtmlRoot t = true := by
  intro r
  induction r with
  | zero => intro t h; simp [fetchLoop] at h
  | succ n ih =>
    intro t h
    rw [fetchLoop] at h
    revert h
    cases oracle (maxR - (n + 1)) with
    | ok u =>
      simp only
      split
      · rename_i hu
        intro h
        simp only [Option.some_inj] at h
        rw [← h]
        exact hu
      · split
        · intro h; simp at h
        · intro h; exact ih t h
    | raises =>
      simp only
      split
      · intro h; simp at h
      · intro h; exact ih t h

theorem fetchLoop_one_fail (oracle : Nat → Att)
    (h2 : attemptFails (oracle 2) = true) :
    fetchLoop oracle 3 1 = (none, ⟨1, [(1, 5 / 2)]⟩) := by
  rw [fetchLoop]
  have ha : (3 : Nat) - (0 + 1) = 2 := by norm_num
  rw [ha]
  cases ho : oracle 2 with
  | raises => simp
  | ok t =>
    rw [ho] at h2
    simp only [attemptFails, Bool.not_eq_true'] at h2
    simp [h2]

theorem fetchLoop_two_fail (oracle : Nat → Att)
    (h1 : attemptFails (oracle 1) = true) (h2 : attemptFails (oracle 2) = true) :
    fetchLoop oracle 3 2 = (none, ⟨2, [(1, 5 / 2), (2, 5), (1, 5 / 2)]⟩) := by
  rw [fetchLoop]
  have ha : (3 : Nat) - (1 + 1) = 1 := by norm_num
  rw [ha]
  cases ho : oracle 1 with
  | raises => simp [fetchLoop_one_fail oracle h2]
  | ok t =>
    rw [ho] at h1
    simp only [attemptFails, Bool.not_eq_true'] at h1
    simp [h1, fetchLoop_one_fail oracle h2]

theorem fetchLoop_three_fail (oracle : Nat → Att)
    (h0 : attemptFails (oracle 0) = true) (h1 : attemptFails (oracle 1) = true)
    (h2 : attemptFails (oracle 2) = true) :
    fetchLoop oracle 3 3 =
      (none, ⟨3, [(1, 5 / 2), (2, 5), (1, 5 / 2), (2, 5), (1, 5 / 2)]⟩) := by
  rw [fetchLoop]
  have ha : (3 : Nat) - (2 + 1) = 0 := by norm_num
  rw [ha]
  cases ho : oracle 0 with
  | raises => simp [fetchLoop_two_fail oracle h1 h2]
  | ok t =>
    rw [ho] at h0
    simp only [attemptFails, Bool.not_eq_true'] at h0
    simp [h0, fetchLoop_two_fail oracle h1 h2]

/-- C7 counterexample: the claim's backoff description ("~1.0–2.5 time units
before the first retry, ~2–5 between later retries, an increasing range") is
false — each failed non-final attempt sleeps a `uniform(2, 5)` draw *and*
the next loop iteration's `uniform(1.0, 2.5)` courtesy draw, so with every
request failing the recorded sleep ranges are five, the delay before the
first retry is the sum of a `(2,5)` and a `(1,2.5)` draw — at least 3, which
a single `(1.0, 2.5)` draw (at most 2.5) can never reach — and the ranges
between later retries are identical, not increased. -/
theorem fetch_backoff_not_single_draw :
    (fetch_html (fun _ => Att.raises)).2.sleeps
      = [(1, 5 / 2), (2, 5), (1, 5 / 2), (2, 5), (1, 5 / 2)] ∧
    ¬((2 : ℚ) + 1 ≤ 5 / 2) :=
  ⟨rfl, by norm_num⟩

/-- C7 (amended): `fetch_html` makes at most 3 attempts per URL, accepts a
response only if it contains a recognizable markup root, and when each of
the 3 attempts fails it returns `none` without raising and without a 4th
attempt; every attempt is preceded by a random sleep drawn from (1.0, 2.5)
and every failed non-final attempt is followed by an additional draw from
(2, 5), so the recorded sleep ranges of a fully failing call are
`(1,2.5), (2,5), (1,2.5), (2,5), (1,2.5)`. -/
theorem fetch_html_retry_spec :
    (∀ oracle : Nat → Att, (fetch_html oracle).2.requests ≤ 3) ∧
    (∀ (oracle : Nat → Att) (t : Str),
      (fetch_html oracle).1 = some t → hasHtmlRoot t = true) ∧
    (∀ oracle : Nat → Att,
      attemptFails (oracle 0) = true → attemptFails (oracle 1) = true →
      attemptFails (oracle 2) = true →
      fetch_html oracle =
        (none, ⟨3, [(1, 5 / 2), (2, 5), (1, 5 / 2), (2, 5), (1, 5 / 2)]⟩)) :=
  ⟨fun oracle => fetchLoop_requests_le oracle 3 3,
   fun oracle t h => fetchLoop_some_html oracle 3 3 t h,
   fun oracle h0 h1 h2 => fetchLoop_three_fail oracle h0 h1 h2⟩

/-- C7 witness: the retry-exhaustion clause applied at a network that always
raises. -/
theorem fetch_html_retry_spec_witness :
    fetch_html (fun _ => Att.raises) =
      (none, ⟨3, [(1, 5 / 2), (2, 5), (1, 5 / 2), (2, 5), (1, 5 / 2)]⟩) :=
  fetch_html_retry_spec.2.2 (fun _ => Att.raises) rfl rfl rfl
